import Mathlib

/-
Verification of the GridTrading repository (src/main.py) against its
natural-language specification.

The relevant source functions are shallowly embedded below:
  * `optimize_grid_for_period` (src/main.py lines 57-78) as `gridRange`,
    `gridSize`, `transactionCost`, `avgProfitPerTrade`, `estimatedTrades`,
    `totalProfit`, `bestStep`/`bestSearch` and `optimize`;
  * `calculate_grid_parameters` (src/main.py lines 19-55) as the statistics
    helpers (`listMean`, `popVar`, `popStd`, `sampleVar`, `sampleStd`,
    `pctChange`, `sharpeOf`, `var95Of`, ...), `riskMultipliers`,
    `rangeBounds`, the Python-dict model (`dictInsert`, `insertAll`,
    `lookupD`, `keysOf`) and `calculate`.

Python floats are modelled by exact field arithmetic: the optimizer and the
range selector are stated generically over a `LinearOrderedField` (so the
theorems can be instantiated at `ℚ` and evaluated), while the statistics
pipeline, which takes square roots, lives over `ℝ`.  Lean's convention
`x / 0 = 0` replaces the float behaviour (`inf`/`nan`/`ZeroDivisionError`);
whenever a claim is about a division by zero we therefore prove that the
divisor is zero on the code path in question rather than reasoning about
IEEE values.  Python's evaluation order (which statements have run before an
exception is raised) is made observable through an explicit event trace
returned by `calculate`.
-/

set_option maxHeartbeats 1000000
set_option linter.unusedVariables false

variable {K : Type} [LinearOrderedField K]

/-- Result dictionary returned by `optimize_grid_for_period`
(src/main.py lines 74-78). -/
structure GridResult (K : Type) where
  gridCount : ℕ
  estimatedProfit : K
  gridSize : K
deriving DecidableEq, Repr

/-- src/main.py line 58:
`grid_range = range(5, 16) if period <= 30 else range(10, 26) if period <= 90 else range(20, 51)`.
Python `range(a, b)` is the half-open interval, i.e. `List.range' a (b - a)`. -/
def gridRange (period : ℤ) : List ℕ :=
  if period ≤ 30 then List.range' 5 11
  else if period ≤ 90 then List.range' 10 16
  else List.range' 20 31

/-- src/main.py line 63: `grid_size = (highest_price - lowest_price) / grid_count`. -/
def gridSize (lowest highest : K) (g : ℕ) : K :=
  (highest - lowest) / (g : K)

/-- src/main.py line 65:
`transaction_cost = (lowest_price + grid_size / 2) * commission_rate * trade_volume + fixed_fee * trade_volume`. -/
def transactionCost (lowest highest commissionRate fixedFee tradeVolume : K) (g : ℕ) : K :=
  (lowest + gridSize lowest highest g / 2) * commissionRate * tradeVolume
    + fixedFee * tradeVolume

/-- src/main.py line 66:
`avg_profit_per_trade = grid_size * trade_volume - transaction_cost`. -/
def avgProfitPerTrade (lowest highest commissionRate fixedFee tradeVolume : K) (g : ℕ) : K :=
  gridSize lowest highest g * tradeVolume
    - transactionCost lowest highest commissionRate fixedFee tradeVolume g

/-- src/main.py line 67:
`estimated_trades = min(grid_count * 2, period / 7 * 2)` (Python 3 `/` is real
division). -/
def estimatedTrades (g : ℕ) (period : ℤ) : K :=
  min ((g : K) * 2) ((period : K) / 7 * 2)

/-- src/main.py line 68: `total_profit = avg_profit_per_trade * estimated_trades`. -/
def totalProfit (lowest highest commissionRate fixedFee : K) (period : ℤ) (tradeVolume : K)
    (g : ℕ) : K :=
  avgProfitPerTrade lowest highest commissionRate fixedFee tradeVolume g
    * estimatedTrades g period

/-- Loop body of src/main.py lines 70-72: the running pair
`(max_profit, optimal_grid_count)` is updated only on a strict improvement. -/
def bestStep (p : ℕ → K) (acc : K × ℕ) (g : ℕ) : K × ℕ :=
  if p g > acc.1 then (p g, g) else acc

/-- The search loop of src/main.py lines 59-72, starting from
`max_profit = 0`, `optimal_grid_count = 0`. -/
def bestSearch (p : ℕ → K) (l : List ℕ) : K × ℕ :=
  l.foldl (bestStep p) (0, 0)

/-- src/main.py lines 57-78, `optimize_grid_for_period`.  The `avgAmplitude`
parameter is accepted but unused, exactly as in the source.  Note that the
final `grid_size` is recomputed by dividing by the winning grid count, even
when that count is still the initial `0`. -/
def optimize (lowest highest avgAmplitude commissionRate fixedFee : K) (period : ℤ)
    (tradeVolume : K) : GridResult K :=
  let r := bestSearch
    (fun g => totalProfit lowest highest commissionRate fixedFee period tradeVolume g)
    (gridRange period)
  { gridCount := r.2
    estimatedProfit := r.1
    gridSize := (highest - lowest) / ((r.2 : ℕ) : K) }

/-- src/main.py line 38: `risk_multipliers = {'low': 1.5, 'medium': 2, 'high': 2.5}`,
line 39: `multiplier = risk_multipliers[risk_level]` (a missing key raises
`KeyError`, modelled by `none`). -/
def riskMultipliers (K : Type) [LinearOrderedField K] (riskLevel : String) : Option K :=
  if riskLevel = "low" then some (3 / 2)
  else if riskLevel = "medium" then some 2
  else if riskLevel = "high" then some (5 / 2)
  else none

/-- src/main.py lines 41-42:
`lowest_price = mean_price - multiplier * std_price`,
`highest_price = mean_price + multiplier * std_price`. -/
def rangeBounds (meanPrice stdPrice multiplier : K) : K × K :=
  (meanPrice - multiplier * stdPrice, meanPrice + multiplier * stdPrice)

/-- One row of the price history: the fields of `hist_data` used by
`calculate_grid_parameters` (src/main.py lines 23, 28). -/
structure DayRecord where
  high : ℝ
  low : ℝ
  close : ℝ

/-- src/main.py line 23: `close_prices = hist_data['Close']`. -/
def closesOf (s : List DayRecord) : List ℝ :=
  s.map (fun d => d.close)

/-- Model of `numpy.mean` / `pandas.Series.mean`: the arithmetic mean (`0/0 = 0` stands
in for the float `nan` on an empty list, which cannot occur past the length
check). -/
noncomputable def listMean (l : List ℝ) : ℝ :=
  l.sum / l.length

/-- Model of `numpy.std` (population variance, divisor `N`), the square of the value
used at src/main.py line 27. -/
noncomputable def popVar (l : List ℝ) : ℝ :=
  (l.map (fun x => (x - listMean l) ^ 2)).sum / l.length

/-- src/main.py line 27: `std_price = np.std(close_prices)`. -/
noncomputable def popStd (l : List ℝ) : ℝ :=
  Real.sqrt (popVar l)

/-- Model of `pandas.Series.std` default `ddof = 1` (sample variance, divisor `N - 1`),
the square of the value used at src/main.py lines 32 and 35. -/
noncomputable def sampleVar (l : List ℝ) : ℝ :=
  (l.map (fun x => (x - listMean l) ^ 2)).sum / ((l.length : ℝ) - 1)

/-- Model of `returns.std()` at src/main.py line 32. -/
noncomputable def sampleStd (l : List ℝ) : ℝ :=
  Real.sqrt (sampleVar l)

/-- src/main.py line 24: `returns = close_prices.pct_change().dropna()` — the
percentage change between consecutive closes, with the leading `NaN` dropped,
leaving `length - 1` values. -/
noncomputable def pctChange (l : List ℝ) : List ℝ :=
  (l.zip l.tail).map (fun p => (p.2 - p.1) / p.1)

/-- The daily-returns series of src/main.py line 24. -/
noncomputable def dailyReturnsOf (s : List DayRecord) : List ℝ :=
  pctChange (closesOf s)

/-- src/main.py line 26: `mean_price = np.mean(close_prices)`. -/
noncomputable def meanPriceOf (s : List DayRecord) : ℝ :=
  listMean (closesOf s)

/-- src/main.py line 27: `std_price = np.std(close_prices)`. -/
noncomputable def stdPriceOf (s : List DayRecord) : ℝ :=
  popStd (closesOf s)

/-- src/main.py line 28: `avg_amplitude = np.mean(hist_data['High'] - hist_data['Low'])`. -/
noncomputable def avgAmplitudeOf (s : List DayRecord) : ℝ :=
  listMean (s.map (fun d => d.high - d.low))

/-- src/main.py lines 31-32:
`sharpe_ratio = (returns.mean() * 252 - risk_free_rate) / (returns.std() * np.sqrt(252))`
with `risk_free_rate = 0.02`.  The denominator is `sampleStd * √252`; when the
return volatility is zero this is a division by zero (`-inf` in floats, the
junk value `0` under Lean's convention) — the source has no guard. -/
noncomputable def sharpeOf (s : List DayRecord) : ℝ :=
  (listMean (dailyReturnsOf s) * 252 - 0.02) /
    (sampleStd (dailyReturnsOf s) * Real.sqrt 252)

/-- Cumulative distribution function of the standard normal distribution,
used to model `scipy.stats.norm`. -/
noncomputable def stdNormalCdf (x : ℝ) : ℝ :=
  ∫ t in Set.Iic x, Real.exp (-(t ^ 2) / 2) / Real.sqrt (2 * Real.pi)

/-- Quantile (inverse CDF) of the standard normal distribution. -/
noncomputable def normQuantile (p : ℝ) : ℝ :=
  sInf {x : ℝ | p ≤ stdNormalCdf x}

/-- Model of `scipy.stats.norm.ppf(q, loc, scale) = loc + scale * Phi_inv(q)`. -/
noncomputable def normPpf (q loc scale : ℝ) : ℝ :=
  loc + scale * normQuantile q

/-- src/main.py line 35: `var_95 = stats.norm.ppf(0.05, returns.mean(), returns.std())`. -/
noncomputable def var95Of (s : List DayRecord) : ℝ :=
  normPpf 0.05 (listMean (dailyReturnsOf s)) (sampleStd (dailyReturnsOf s))

/-- src/main.py line 51: `close_prices.iloc[-1]` (the series is nonempty past
the length check, so the default value is never used). -/
def currentPriceOf (s : List DayRecord) : ℝ :=
  (closesOf s).getLastD 0

/-- The two exceptions `calculate_grid_parameters` itself can raise: the
`ValueError` of src/main.py line 21 and the `KeyError` of line 39. -/
inductive Err where
  | insufficientData
  | invalidRiskLevel
deriving DecidableEq, Repr

/-- Observable pipeline steps of `calculate_grid_parameters`, recorded in
source order: `statsDone` marks the statistics block (src/main.py lines
23-35), `optimized h` one iteration of the per-period loop (lines 45-46). -/
inductive Event where
  | statsDone
  | optimized (period : ℤ)
deriving DecidableEq, Repr

/-- The result dictionary of src/main.py lines 48-55. -/
structure CalcResult where
  lowestPrice : ℝ
  highestPrice : ℝ
  currentPrice : ℝ
  sharpeRatio : ℝ
  var95 : ℝ
  periodStrategies : List (ℤ × GridResult ℝ)

/-- Python-dict assignment `d[k] = v`: if the key is present its value is
overwritten in place (the entry keeps its position), otherwise the pair is
appended at the end.  This is exactly the insertion-order semantics of
`period_strategies[period] = ...` at src/main.py line 46. -/
def dictInsert {A : Type} (d : List (ℤ × A)) (k : ℤ) (v : A) : List (ℤ × A) :=
  if k ∈ d.map Prod.fst then
    d.map (fun kv => if kv.1 = k then (k, v) else kv)
  else
    d ++ [(k, v)]

/-- The loop of src/main.py lines 44-46: starting from `d`, assign
`d[p] = opt p` for each `p` in order. -/
def insertAll {A : Type} (opt : ℤ → A) (d : List (ℤ × A)) (l : List ℤ) : List (ℤ × A) :=
  l.foldl (fun d p => dictInsert d p (opt p)) d

/-- The keys of a Python dict in insertion order. -/
def keysOf {A : Type} (d : List (ℤ × A)) : List ℤ :=
  d.map Prod.fst

/-- Python-dict lookup `d[k]`: the value of the first (unique) entry with the
given key. -/
def lookupD {A : Type} : List (ℤ × A) → ℤ → Option A
  | [], _ => none
  | kv :: d, k => if kv.1 = k then some kv.2 else lookupD d k

/-- Specification-side definition of "one entry per value, positioned at its
first occurrence": keep the first occurrence of each element and drop the
later duplicates. -/
def dedupFirst : List ℤ → List ℤ
  | [] => []
  | a :: l => a :: dedupFirst (l.filter (fun b => decide (b ≠ a)))
termination_by l => l.length
decreasing_by
  simp only [List.length_cons]
  exact Nat.lt_succ_of_le (List.length_filter_le _ _)

/-- src/main.py lines 19-55, `calculate_grid_parameters`, with the evaluation
order made observable: the first component lists the pipeline steps that have
run before the function returned or raised.  Statistics (lines 23-35) are
computed before the risk-level lookup (line 39); the per-period loop (lines
44-46) runs afterwards; a too-short history raises before anything else
(lines 20-21). -/
noncomputable def calculate (histData : List DayRecord) (investmentPeriods : List ℤ)
    (riskLevel : String) (commissionRate fixedFee tradeVolume : ℝ) :
    List Event × Except Err CalcResult :=
  if histData.length < 20 then ([], Except.error Err.insufficientData)
  else
    match riskMultipliers ℝ riskLevel with
    | none => ([Event.statsDone], Except.error Err.invalidRiskLevel)
    | some multiplier =>
      let bounds := rangeBounds (meanPriceOf histData) (stdPriceOf histData) multiplier
      let strategies := insertAll
        (fun period => optimize bounds.1 bounds.2 (avgAmplitudeOf histData)
          commissionRate fixedFee period tradeVolume)
        [] investmentPeriods
      (Event.statsDone :: investmentPeriods.map Event.optimized,
        Except.ok
          { lowestPrice := bounds.1
            highestPrice := bounds.2
            currentPrice := currentPriceOf histData
            sharpeRatio := sharpeOf histData
            var95 := var95Of histData
            periodStrategies := strategies })

/-- A 20-day price history with constant price 1: long enough for the length
check, but with zero dispersion and zero daily returns. -/
def constSeries : List DayRecord :=
  List.replicate 20 { high := 1, low := 1, close := 1 }

/-- Invariant of the search loop of src/main.py lines 62-72: folding `bestStep`
either never improves on the initial accumulator (and then every candidate's
profit is bounded by the initial maximum), or the result is `(p g, g)` for the
first candidate `g` attaining the overall maximum: every candidate before `g`
has strictly smaller profit and every candidate after `g` has profit at most
`p g`. -/
theorem foldl_bestStep_cases (p : ℕ → K) :
    ∀ (l : List ℕ) (m0 : K) (c0 : ℕ),
      (l.foldl (bestStep p) (m0, c0) = (m0, c0) ∧ ∀ g ∈ l, p g ≤ m0) ∨
      (∃ l1 g l2, l = l1 ++ g :: l2 ∧ l.foldl (bestStep p) (m0, c0) = (p g, g) ∧
        m0 < p g ∧ (∀ x ∈ l1, p x < p g) ∧ (∀ x ∈ l2, p x ≤ p g)) := by
  intro l
  induction l with
  | nil =>
    intro m0 c0
    exact Or.inl ⟨rfl, by simp⟩
  | cons a l ih =>
    intro m0 c0
    by_cases hca : p a > m0
    · have hfold : (a :: l).foldl (bestStep p) (m0, c0) = l.foldl (bestStep p) (p a, a) := by
        simp [List.foldl_cons, bestStep, hca]
      rcases ih (p a) a with ⟨heq, hall⟩ | ⟨l1, g, l2, hdec, heq, hlt, h1, h2⟩
      · exact Or.inr ⟨[], a, l, by simp, by rw [hfold, heq], hca, by simp, hall⟩
      · refine Or.inr ⟨a :: l1, g, l2, by rw [hdec, List.cons_append], by rw [hfold, heq],
          lt_trans hca hlt, ?_, h2⟩
        intro x hx
        rcases List.mem_cons.mp hx with rfl | hx1
        · exact hlt
        · exact h1 x hx1
    · push_neg at hca
      have hfold : (a :: l).foldl (bestStep p) (m0, c0) = l.foldl (bestStep p) (m0, c0) := by
        simp [List.foldl_cons, bestStep, not_lt.mpr hca]
      rcases ih m0 c0 with ⟨heq, hall⟩ | ⟨l1, g, l2, hdec, heq, hlt, h1, h2⟩
      · refine Or.inl ⟨by rw [hfold, heq], ?_⟩
        intro x hx
        rcases List.mem_cons.mp hx with rfl | hx1
        · exact hca
        · exact hall x hx1
      · refine Or.inr ⟨a :: l1, g, l2, by rw [hdec, List.cons_append], by rw [hfold, heq], hlt, ?_, h2⟩
        intro x hx
        rcases List.mem_cons.mp hx with rfl | hx1
        · exact lt_of_le_of_lt hca hlt
        · exact h1 x hx1

/-- The candidate list of src/main.py line 58 is strictly increasing. -/
theorem gridRange_pairwise (period : ℤ) : (gridRange period).Pairwise (· < ·) := by
  unfold gridRange
  split_ifs <;> exact List.pairwise_lt_range' _ _

/-- Claim C5: for every candidate grid count `g` the optimizer's profit model is
`totalProfit = (gridSize * volume - transactionCost) * min (2 g) (2 * horizon / 7)`
with `gridSize = (highest - lowest) / g` and
`transactionCost = (lowest + gridSize / 2) * commissionRate * volume + fixedFee * volume`,
the weeks term using real division; on the worked example `[80, 120]`,
`g = 10`, `commissionRate = 0.001`, `fixedFee = 1`, `volume = 100` this gives
`gridSize = 4`, `transactionCost = 108.2 = 541/5` and
`avgProfitPerTrade = 291.8 = 1459/5`. -/
theorem c5_profit_model :
    (∀ (lowest highest commissionRate fixedFee tradeVolume : ℚ) (period : ℤ) (g : ℕ),
        totalProfit lowest highest commissionRate fixedFee period tradeVolume g =
          (gridSize lowest highest g * tradeVolume -
              ((lowest + gridSize lowest highest g / 2) * commissionRate * tradeVolume +
                fixedFee * tradeVolume)) *
            min (2 * (g : ℚ)) (2 * (period : ℚ) / 7)) ∧
    gridSize (80 : ℚ) 120 10 = 4 ∧
    transactionCost (80 : ℚ) 120 (1 / 1000) 1 100 10 = 541 / 5 ∧
    avgProfitPerTrade (80 : ℚ) 120 (1 / 1000) 1 100 10 = 1459 / 5 := by
  refine ⟨?_, by norm_num [gridSize], by norm_num [transactionCost, gridSize],
    by norm_num [avgProfitPerTrade, transactionCost, gridSize]⟩
  intro lowest highest c f v per g
  have h1 : (g : ℚ) * 2 = 2 * g := mul_comm _ _
  have h2 : (per : ℚ) / 7 * 2 = 2 * (per : ℚ) / 7 := by ring
  simp only [totalProfit, avgProfitPerTrade, transactionCost, estimatedTrades, h1, h2]

/-- Claim C7: for a positive horizon the candidate set is exactly the inclusive
tier determined by the horizon: `{5..15}` for `h ≤ 30`, `{10..25}` for
`30 < h ≤ 90` and `{20..50}` for `h > 90`. -/
theorem c7_grid_tiers (h : ℤ) (hpos : 0 < h) (g : ℕ) :
    g ∈ gridRange h ↔
      (h ≤ 30 ∧ 5 ≤ g ∧ g ≤ 15) ∨ (30 < h ∧ h ≤ 90 ∧ 10 ≤ g ∧ g ≤ 25) ∨
        (90 < h ∧ 20 ≤ g ∧ g ≤ 50) := by
  unfold gridRange
  split_ifs with h30 h90 <;> simp only [List.mem_range'_1] <;> omega

/-- Witness for C7 at the boundary horizon 31 and candidate 12. -/
theorem c7_grid_tiers_witness :
    (0 : ℤ) < 31 ∧
      (12 ∈ gridRange 31 ↔
        ((31 : ℤ) ≤ 30 ∧ 5 ≤ 12 ∧ 12 ≤ 15) ∨
          ((30 : ℤ) < 31 ∧ (31 : ℤ) ≤ 90 ∧ 10 ≤ 12 ∧ 12 ≤ 25) ∨
          ((90 : ℤ) < 31 ∧ 20 ≤ 12 ∧ 12 ≤ 50)) :=
  ⟨by norm_num, c7_grid_tiers 31 (by norm_num) 12⟩

/-- Evaluation of the risk-multiplier dictionary at the key `"low"`. -/
theorem riskMultipliers_low_eq (K : Type) [LinearOrderedField K] :
    riskMultipliers K "low" = some (3 / 2) := by
  simp [riskMultipliers]

/-- Evaluation of the risk-multiplier dictionary at the key `"medium"`. -/
theorem riskMultipliers_medium_eq (K : Type) [LinearOrderedField K] :
    riskMultipliers K "medium" = some 2 := by
  have h1 : ¬ ("medium" : String) = "low" := by decide
  simp [riskMultipliers, h1]

/-- Evaluation of the risk-multiplier dictionary at the key `"high"`. -/
theorem riskMultipliers_high_eq (K : Type) [LinearOrderedField K] :
    riskMultipliers K "high" = some (5 / 2) := by
  have h1 : ¬ ("high" : String) = "low" := by decide
  have h2 : ¬ ("high" : String) = "medium" := by decide
  simp [riskMultipliers, h1, h2]

/-- A key outside the three enumerated risk levels misses the dictionary
(`KeyError` in the source). -/
theorem riskMultipliers_none (K : Type) [LinearOrderedField K] (r : String)
    (h1 : r ≠ "low") (h2 : r ≠ "medium") (h3 : r ≠ "high") :
    riskMultipliers K r = none := by
  simp [riskMultipliers, h1, h2, h3]

/-- Claim C8: the risk multiplier table binds low ↦ 1.5, medium ↦ 2, high ↦ 2.5
and the selected range is `mean ∓ multiplier * std` with no clamping of the
lower bound at zero; `mean = 100`, `std = 10`, medium gives `(80, 120)`, and
`mean = 1`, `std = 10`, medium gives a negative lowest price. -/
theorem c8_range_selection :
    (∀ m s : ℚ, (riskMultipliers ℚ "low").map (rangeBounds m s) =
        some (m - 3 / 2 * s, m + 3 / 2 * s)) ∧
    (∀ m s : ℚ, (riskMultipliers ℚ "medium").map (rangeBounds m s) =
        some (m - 2 * s, m + 2 * s)) ∧
    (∀ m s : ℚ, (riskMultipliers ℚ "high").map (rangeBounds m s) =
        some (m - 5 / 2 * s, m + 5 / 2 * s)) ∧
    (riskMultipliers ℚ "medium").map (rangeBounds 100 10) = some (80, 120) ∧
    (rangeBounds (1 : ℚ) 10 2).1 < 0 := by
  refine ⟨?_, ?_, ?_, ?_, ?_⟩ <;>
    norm_num [riskMultipliers_low_eq, riskMultipliers_medium_eq, riskMultipliers_high_eq,
      rangeBounds]

/-- Claim C9: for a fixed summary with positive dispersion the three risk
levels' intervals share the center `mean` and are strictly nested
(low ⊂ medium ⊂ high), each with `lowest < highest`. -/
theorem c9_nested_ranges (m s lowMul medMul highMul : ℚ) (hs : 0 < s)
    (hl : riskMultipliers ℚ "low" = some lowMul)
    (hm : riskMultipliers ℚ "medium" = some medMul)
    (hh : riskMultipliers ℚ "high" = some highMul) :
    ((rangeBounds m s medMul).1 < (rangeBounds m s lowMul).1 ∧
      (rangeBounds m s lowMul).2 < (rangeBounds m s medMul).2) ∧
    ((rangeBounds m s highMul).1 < (rangeBounds m s medMul).1 ∧
      (rangeBounds m s medMul).2 < (rangeBounds m s highMul).2) ∧
    ((rangeBounds m s lowMul).1 < (rangeBounds m s lowMul).2 ∧
      (rangeBounds m s medMul).1 < (rangeBounds m s medMul).2 ∧
      (rangeBounds m s highMul).1 < (rangeBounds m s highMul).2) ∧
    ((rangeBounds m s lowMul).1 + (rangeBounds m s lowMul).2 = 2 * m ∧
      (rangeBounds m s medMul).1 + (rangeBounds m s medMul).2 = 2 * m ∧
      (rangeBounds m s highMul).1 + (rangeBounds m s highMul).2 = 2 * m) := by
  rw [riskMultipliers_low_eq, Option.some.injEq] at hl
  rw [riskMultipliers_medium_eq, Option.some.injEq] at hm
  rw [riskMultipliers_high_eq, Option.some.injEq] at hh
  subst hl hm hh
  simp only [rangeBounds]
  refine ⟨⟨by linarith, by linarith⟩, ⟨by linarith, by linarith⟩,
    ⟨by linarith, by linarith, by linarith⟩, ⟨by ring, by ring, by ring⟩⟩

/-- Witness for C9 at `mean = 0`, `std = 1` and the table's three multipliers. -/
theorem c9_nested_ranges_witness :
    (0 : ℚ) < 1 ∧ riskMultipliers ℚ "low" = some (3 / 2) ∧
      riskMultipliers ℚ "medium" = some 2 ∧ riskMultipliers ℚ "high" = some (5 / 2) ∧
      (((rangeBounds (0 : ℚ) 1 2).1 < (rangeBounds (0 : ℚ) 1 (3 / 2)).1 ∧
        (rangeBounds (0 : ℚ) 1 (3 / 2)).2 < (rangeBounds (0 : ℚ) 1 2).2) ∧
      ((rangeBounds (0 : ℚ) 1 (5 / 2)).1 < (rangeBounds (0 : ℚ) 1 2).1 ∧
        (rangeBounds (0 : ℚ) 1 2).2 < (rangeBounds (0 : ℚ) 1 (5 / 2)).2) ∧
      ((rangeBounds (0 : ℚ) 1 (3 / 2)).1 < (rangeBounds (0 : ℚ) 1 (3 / 2)).2 ∧
        (rangeBounds (0 : ℚ) 1 2).1 < (rangeBounds (0 : ℚ) 1 2).2 ∧
        (rangeBounds (0 : ℚ) 1 (5 / 2)).1 < (rangeBounds (0 : ℚ) 1 (5 / 2)).2) ∧
      ((rangeBounds (0 : ℚ) 1 (3 / 2)).1 + (rangeBounds (0 : ℚ) 1 (3 / 2)).2 = 2 * 0 ∧
        (rangeBounds (0 : ℚ) 1 2).1 + (rangeBounds (0 : ℚ) 1 2).2 = 2 * 0 ∧
        (rangeBounds (0 : ℚ) 1 (5 / 2)).1 + (rangeBounds (0 : ℚ) 1 (5 / 2)).2 = 2 * 0)) :=
  ⟨by norm_num, riskMultipliers_low_eq ℚ, riskMultipliers_medium_eq ℚ,
    riskMultipliers_high_eq ℚ,
    c9_nested_ranges 0 1 (3 / 2) 2 (5 / 2) (by norm_num)
      (riskMultipliers_low_eq ℚ) (riskMultipliers_medium_eq ℚ)
      (riskMultipliers_high_eq ℚ)⟩

/-- Claim C1 concerns the degenerate case in which no candidate beats the
initial `max_profit = 0`.  On the code (src/main.py lines 59-78) the search
then returns `optimal_grid_count = 0` and line 77 computes
`grid_size = (highest - lowest) / 0` — a division by zero — instead of
reporting a "no profitable grid count found" outcome.  Concrete instance
inside the claim's domain (`highest > lowest`, positive horizon): the range
`[0, 0.01]` with `commissionRate = 0.001`, `fixedFee = 1`, `horizon = 30`,
`tradeVolume = 100`.  Each candidate grid is at most `0.002` wide, so every
candidate's profit per trade is below `0.2 - 100 < 0`, no candidate's total
profit beats the zero baseline, the loop never updates, and the returned
`gridCount` is `0` — the divisor of the returned `grid_size`. -/
theorem c1_no_profitable_grid_divides_by_zero :
    (0 : ℚ) < 1 / 100 ∧
    bestSearch (fun g => totalProfit (0 : ℚ) (1 / 100) (1 / 1000) 1 30 100 g)
      (gridRange 30) = (0, 0) ∧
    (optimize (0 : ℚ) (1 / 100) 0 (1 / 1000) 1 30 100).gridCount = 0 ∧
    (optimize (0 : ℚ) (1 / 100) 0 (1 / 1000) 1 30 100).estimatedProfit = 0 := by
  have hbs : bestSearch (fun g => totalProfit (0 : ℚ) (1 / 100) (1 / 1000) 1 30 100 g)
      (gridRange 30) = (0, 0) := by
    norm_num [bestSearch, bestStep, gridRange, List.range', totalProfit, avgProfitPerTrade,
      transactionCost, gridSize, estimatedTrades, min_def, List.foldl]
  refine ⟨by norm_num, hbs, ?_, ?_⟩ <;> · simp only [optimize]; rw [hbs]

/-- Claim C6: whenever some candidate in the horizon's tier has strictly
positive `totalProfit`, the optimizer returns a grid count from the tier whose
profit is the maximum over the tier, the reported `estimatedProfit` is that
profit, and among the candidates attaining the maximum the smallest grid count
is returned (the loop scans candidates in ascending order and updates only on
a strict improvement). -/
theorem c6_argmax_selection (lowest highest avgAmp commissionRate fixedFee tradeVolume : ℚ)
    (period : ℤ)
    (hex : ∃ g ∈ gridRange period,
        0 < totalProfit lowest highest commissionRate fixedFee period tradeVolume g) :
    (optimize lowest highest avgAmp commissionRate fixedFee period tradeVolume).gridCount ∈
        gridRange period ∧
    (optimize lowest highest avgAmp commissionRate fixedFee period tradeVolume).estimatedProfit =
      totalProfit lowest highest commissionRate fixedFee period tradeVolume
        (optimize lowest highest avgAmp commissionRate fixedFee period tradeVolume).gridCount ∧
    (∀ g ∈ gridRange period,
      totalProfit lowest highest commissionRate fixedFee period tradeVolume g ≤
        totalProfit lowest highest commissionRate fixedFee period tradeVolume
          (optimize lowest highest avgAmp commissionRate fixedFee period tradeVolume).gridCount) ∧
    (∀ g ∈ gridRange period,
      totalProfit lowest highest commissionRate fixedFee period tradeVolume g =
        totalProfit lowest highest commissionRate fixedFee period tradeVolume
          (optimize lowest highest avgAmp commissionRate fixedFee period tradeVolume).gridCount →
      (optimize lowest highest avgAmp commissionRate fixedFee period tradeVolume).gridCount ≤ g) := by
  obtain ⟨g0, hg0, hpos⟩ := hex
  rcases foldl_bestStep_cases
      (fun g => totalProfit lowest highest commissionRate fixedFee period tradeVolume g)
      (gridRange period) 0 0 with ⟨heq, hall⟩ | ⟨l1, g, l2, hdec, heq, hlt, h1, h2⟩
  · exact absurd (hall g0 hg0) (not_le.mpr hpos)
  · have hc : (optimize lowest highest avgAmp commissionRate fixedFee period
        tradeVolume).gridCount = g := by
      show (bestSearch (fun g => totalProfit lowest highest commissionRate fixedFee period
        tradeVolume g) (gridRange period)).2 = g
      rw [bestSearch, heq]
    have hp : (optimize lowest highest avgAmp commissionRate fixedFee period
        tradeVolume).estimatedProfit =
          totalProfit lowest highest commissionRate fixedFee period tradeVolume g := by
      show (bestSearch (fun g => totalProfit lowest highest commissionRate fixedFee period
        tradeVolume g) (gridRange period)).1 =
          totalProfit lowest highest commissionRate fixedFee period tradeVolume g
      rw [bestSearch, heq]
    have hpw := gridRange_pairwise period
    rw [hdec] at hpw
    have hg_lt_l2 : ∀ b ∈ l2, g < b :=
      (List.pairwise_cons.mp (List.pairwise_append.mp hpw).2.1).1
    refine ⟨?_, ?_, ?_, ?_⟩
    · rw [hc, hdec]
      exact List.mem_append.mpr (Or.inr (List.mem_cons_self g l2))
    · rw [hp, hc]
    · intro x hx
      rw [hp, hc] at *
      rw [hdec] at hx
      rcases List.mem_append.mp hx with hx1 | hx2
      · exact le_of_lt (h1 x hx1)
      · rcases List.mem_cons.mp hx2 with rfl | hx3
        · exact le_refl _
        · exact h2 x hx3
    · intro x hx hxeq
      rw [hp, hc] at *
      rw [hdec] at hx
      rcases List.mem_append.mp hx with hx1 | hx2
      · exact absurd hxeq (ne_of_lt (h1 x hx1))
      · rcases List.mem_cons.mp hx2 with rfl | hx3
        · exact le_refl _
        · exact le_of_lt (hg_lt_l2 x hx3)

/-- Witness for C6 on the spec's worked example: bounds `[80, 120]`,
`commissionRate = 0.001`, `fixedFee = 1`, horizon 30, volume 100, where
candidate 10 has positive profit. -/
theorem c6_argmax_selection_witness :
    (∃ g ∈ gridRange 30, 0 < totalProfit (80 : ℚ) 120 (1 / 1000) 1 30 100 g) ∧
    ((optimize (80 : ℚ) 120 0 (1 / 1000) 1 30 100).gridCount ∈ gridRange 30 ∧
      (optimize (80 : ℚ) 120 0 (1 / 1000) 1 30 100).estimatedProfit =
        totalProfit (80 : ℚ) 120 (1 / 1000) 1 30 100
          (optimize (80 : ℚ) 120 0 (1 / 1000) 1 30 100).gridCount ∧
      (∀ g ∈ gridRange 30,
        totalProfit (80 : ℚ) 120 (1 / 1000) 1 30 100 g ≤
          totalProfit (80 : ℚ) 120 (1 / 1000) 1 30 100
            (optimize (80 : ℚ) 120 0 (1 / 1000) 1 30 100).gridCount) ∧
      (∀ g ∈ gridRange 30,
        totalProfit (80 : ℚ) 120 (1 / 1000) 1 30 100 g =
          totalProfit (80 : ℚ) 120 (1 / 1000) 1 30 100
            (optimize (80 : ℚ) 120 0 (1 / 1000) 1 30 100).gridCount →
        (optimize (80 : ℚ) 120 0 (1 / 1000) 1 30 100).gridCount ≤ g)) := by
  have hex : ∃ g ∈ gridRange 30, 0 < totalProfit (80 : ℚ) 120 (1 / 1000) 1 30 100 g := by
    refine ⟨10, ?_, ?_⟩
    · norm_num [gridRange, List.range']
    · norm_num [totalProfit, avgProfitPerTrade, transactionCost, gridSize,
        estimatedTrades, min_def]
  exact ⟨hex, c6_argmax_selection 80 120 0 (1 / 1000) 1 100 30 hex⟩

/-- Dict assignment touches the key sequence only when the key is new, in
which case it is appended. -/
theorem keysOf_dictInsert {A : Type} (d : List (ℤ × A)) (k : ℤ) (v : A) :
    keysOf (dictInsert d k v) =
      if k ∈ keysOf d then keysOf d else keysOf d ++ [k] := by
  unfold dictInsert keysOf
  split_ifs with h
  · rw [List.map_map]
    apply List.map_congr_left
    intro kv hkv
    by_cases hk : kv.1 = k
    · simp [Function.comp, hk]
    · simp [Function.comp, hk]
  · simp

/-- Keys accumulated by the per-period assignment loop: the keys already
present, followed by the first occurrences of the new periods. -/
theorem keysOf_insertAll {A : Type} (opt : ℤ → A) :
    ∀ (l : List ℤ) (d : List (ℤ × A)),
      keysOf (insertAll opt d l) =
        keysOf d ++ dedupFirst (l.filter (fun b => decide (b ∉ keysOf d))) := by
  intro l
  induction l with
  | nil =>
    intro d
    simp [insertAll, dedupFirst]
  | cons a l ih =>
    intro d
    have hstep : insertAll opt d (a :: l) = insertAll opt (dictInsert d a (opt a)) l := rfl
    by_cases ha : a ∈ keysOf d
    · rw [hstep, ih, keysOf_dictInsert, if_pos ha,
        List.filter_cons_of_neg (by simp [ha])]
    · rw [hstep, ih, keysOf_dictInsert, if_neg ha,
        List.filter_cons_of_pos (by simp [ha]), dedupFirst, List.filter_filter,
        List.append_assoc, List.singleton_append]
      congr 3
      apply List.filter_congr
      intro b hb
      rw [decide_eq_decide.mpr (by simp [List.mem_append, not_or, and_comm] :
        (b ∉ keysOf d ++ [a]) ↔ (b ≠ a ∧ b ∉ keysOf d)), Bool.decide_and]

/-- Updating a present key in place: lookup of that key yields the new value. -/
theorem lookupD_mapUpdate {A : Type} (k : ℤ) (v : A) :
    ∀ (d : List (ℤ × A)), k ∈ keysOf d →
      lookupD (d.map (fun kv => if kv.1 = k then (k, v) else kv)) k = some v := by
  intro d
  induction d with
  | nil => intro h; simp [keysOf] at h
  | cons kv d ih =>
    intro h
    by_cases hk : kv.1 = k
    · simp [lookupD, hk]
    · have hmem : k ∈ keysOf d := by
        rcases List.mem_cons.mp h with h1 | h1
        · exact absurd h1.symm hk
        · exact h1
      simp only [List.map_cons, lookupD, if_neg hk]
      exact ih hmem

/-- Appending a fresh key at the end: lookup of that key yields the value. -/
theorem lookupD_append_single {A : Type} (k : ℤ) (v : A) :
    ∀ (d : List (ℤ × A)), k ∉ keysOf d → lookupD (d ++ [(k, v)]) k = some v := by
  intro d
  induction d with
  | nil => intro h; simp [lookupD]
  | cons kv d ih =>
    intro h
    simp only [keysOf, List.map_cons, List.mem_cons, not_or] at h
    have hk : ¬ kv.1 = k := fun he : kv.1 = k => h.1 he.symm
    simp only [List.cons_append, lookupD, if_neg hk]
    exact ih (by simpa [keysOf] using h.2)

/-- Updating a key in place does not change the lookup of a different key. -/
theorem lookupD_mapUpdate_other {A : Type} (k j : ℤ) (v : A) (hne : j ≠ k) :
    ∀ (d : List (ℤ × A)),
      lookupD (d.map (fun kv => if kv.1 = k then (k, v) else kv)) j = lookupD d j := by
  intro d
  induction d with
  | nil => rfl
  | cons kv d ih =>
    by_cases hk : kv.1 = k
    · have h1 : ¬ k = j := fun he : k = j => hne he.symm
      have h2 : ¬ kv.1 = j := fun he : kv.1 = j => hne (hk ▸ he).symm
      simp only [List.map_cons, if_pos hk, lookupD, if_neg h1, if_neg h2]
      exact ih
    · simp only [List.map_cons, if_neg hk, lookupD]
      by_cases hj : kv.1 = j
      · simp [hj]
      · simp only [if_neg hj]
        exact ih

/-- Appending a fresh entry does not change the lookup of a different key. -/
theorem lookupD_append_other {A : Type} (k j : ℤ) (v : A) (hne : j ≠ k) :
    ∀ (d : List (ℤ × A)), lookupD (d ++ [(k, v)]) j = lookupD d j := by
  intro d
  induction d with
  | nil =>
    have h1 : ¬ k = j := fun he : k = j => hne he.symm
    simp [lookupD, h1]
  | cons kv d ih =>
    simp only [List.cons_append, lookupD]
    by_cases hj : kv.1 = j
    · simp [hj]
    · simp only [if_neg hj]
      exact ih

/-- Python-dict assignment followed by lookup of the same key returns the
assigned value. -/
theorem lookupD_dictInsert_self {A : Type} (d : List (ℤ × A)) (k : ℤ) (v : A) :
    lookupD (dictInsert d k v) k = some v := by
  unfold dictInsert
  split_ifs with h
  · exact lookupD_mapUpdate k v d h
  · exact lookupD_append_single k v d h

/-- Python-dict assignment does not change the lookup of a different key. -/
theorem lookupD_dictInsert_other {A : Type} (d : List (ℤ × A)) (k j : ℤ) (v : A)
    (hne : j ≠ k) : lookupD (dictInsert d k v) j = lookupD d j := by
  unfold dictInsert
  split_ifs with h
  · exact lookupD_mapUpdate_other k j v hne d
  · exact lookupD_append_other k j v hne d

/-- Keys not assigned by the loop keep their lookup result. -/
theorem lookupD_insertAll_not_mem {A : Type} (opt : ℤ → A) :
    ∀ (l : List ℤ) (d : List (ℤ × A)) (j : ℤ), j ∉ l →
      lookupD (insertAll opt d l) j = lookupD d j := by
  intro l
  induction l with
  | nil => intro d j h; rfl
  | cons a l ih =>
    intro d j h
    simp only [List.mem_cons, not_or] at h
    have hstep : insertAll opt d (a :: l) = insertAll opt (dictInsert d a (opt a)) l := rfl
    rw [hstep, ih _ j h.2, lookupD_dictInsert_other d a j (opt a) h.1]

/-- After the loop of src/main.py lines 44-46, every requested period maps to
the optimizer result for that period. -/
theorem lookupD_insertAll_mem {A : Type} (opt : ℤ → A) :
    ∀ (l : List ℤ) (d : List (ℤ × A)) (j : ℤ), j ∈ l →
      lookupD (insertAll opt d l) j = some (opt j) := by
  intro l
  induction l with
  | nil => intro d j h; simp at h
  | cons a l ih =>
    intro d j h
    have hstep : insertAll opt d (a :: l) = insertAll opt (dictInsert d a (opt a)) l := rfl
    by_cases hj : j ∈ l
    · rw [hstep, ih _ j hj]
    · have hja : j = a := by
        rcases List.mem_cons.mp h with h1 | h1
        · exact h1
        · exact absurd h1 hj
      rw [hstep, lookupD_insertAll_not_mem opt l _ j hj, hja, lookupD_dictInsert_self]

/-- Every element of the deduplicated list occurs in the original list. -/
theorem mem_of_mem_dedupFirst (x : ℤ) :
    ∀ l, x ∈ dedupFirst l → x ∈ l := by
  intro l
  induction l using dedupFirst.induct with
  | case1 => simp [dedupFirst]
  | case2 a l ih =>
    intro hx
    rw [dedupFirst] at hx
    rcases List.mem_cons.mp hx with rfl | hx1
    · exact List.mem_cons_self _ _
    · exact List.mem_cons_of_mem a (List.mem_of_mem_filter (ih hx1))

/-- Keeping only first occurrences produces a list without duplicates. -/
theorem dedupFirst_nodup : ∀ l, (dedupFirst l).Nodup := by
  intro l
  induction l using dedupFirst.induct with
  | case1 => simp [dedupFirst]
  | case2 a l ih =>
    rw [dedupFirst]
    refine List.nodup_cons.mpr ⟨?_, ih⟩
    intro ha
    have hmem := List.mem_filter.mp (mem_of_mem_dedupFirst a _ ha)
    simp at hmem

/-- Zipping a replicated list with its one-shorter replica pairs them up. -/
theorem zip_replicate_succ {α β : Type} (n : ℕ) (a : α) (b : β) :
    (List.replicate (n + 1) a).zip (List.replicate n b) = List.replicate n (a, b) := by
  induction n with
  | zero => simp
  | succ n ih =>
    have h1 : List.replicate (n + 1 + 1) a = a :: List.replicate (n + 1) a := rfl
    have h2 : List.replicate (n + 1) b = b :: List.replicate n b := rfl
    rw [h1, h2, List.zip_cons_cons, ih, List.replicate_succ]

/-- On the constant-price history all 19 daily returns are zero. -/
theorem dailyReturns_constSeries : dailyReturnsOf constSeries = List.replicate 19 (0 : ℝ) := by
  unfold dailyReturnsOf pctChange closesOf constSeries
  rw [List.map_replicate]
  rw [show ((List.replicate 20 (1 : ℝ)).tail) = List.replicate 19 1 from rfl]
  rw [show (20 : ℕ) = 19 + 1 from rfl, zip_replicate_succ, List.map_replicate]
  norm_num

/-- The keys produced by the loop starting from the empty dict are exactly the
requested periods with later duplicates dropped. -/
theorem keysOf_insertAll_nil {A : Type} (opt : ℤ → A) (l : List ℤ) :
    keysOf (insertAll opt ([] : List (ℤ × A)) l) = dedupFirst l := by
  rw [keysOf_insertAll]
  have h : l.filter (fun b => decide (b ∉ keysOf ([] : List (ℤ × A)))) = l := by
    simp [keysOf]
  rw [h]
  rfl

/-- Claim C2 concerns a price series whose daily returns have zero standard
deviation.  The specification requires an `UndefinedSharpeRatio` /
`ComputationError` failure, but the source (src/main.py line 32) divides by
`returns.std() * np.sqrt(252)` with no guard: on the 20-day constant series
the denominator factor `returns.std()` is exactly `0`, and the calculator
nevertheless returns a successful result (in floats the Sharpe field becomes
`-inf`); no error is raised. -/
theorem c2_zero_volatility_unguarded :
    sampleStd (dailyReturnsOf constSeries) = 0 ∧
    (calculate constSeries [30] "medium" (1 / 1000) 1 100).2.isOk = true := by
  constructor
  · rw [dailyReturns_constSeries]
    unfold sampleStd sampleVar listMean
    simp [List.sum_replicate]
  · have hlen : ¬ constSeries.length < 20 := by simp [constSeries]
    simp [calculate, hlen, riskMultipliers_medium_eq, Except.isOk, Except.toBool]

/-- Claim C3 (amended): with a valid series and a risk level outside
{low, medium, high}, `calculate_grid_parameters` fails with the `KeyError`
of src/main.py line 39 (the `InvalidRiskLevel` validation failure) and no
per-horizon optimization has been performed; however the statistics of lines
23-35 have already been computed when the failure occurs — the returned trace
is exactly `[statsDone]`. -/
theorem c3_invalid_risk_no_optimization (s : List DayRecord) (periods : List ℤ)
    (risk : String) (commissionRate fixedFee tradeVolume : ℝ)
    (hlen : 20 ≤ s.length)
    (h1 : risk ≠ "low") (h2 : risk ≠ "medium") (h3 : risk ≠ "high") :
    calculate s periods risk commissionRate fixedFee tradeVolume =
      ([Event.statsDone], Except.error Err.invalidRiskLevel) := by
  have hlen2 : ¬ s.length < 20 := by omega
  simp [calculate, hlen2, riskMultipliers_none ℝ risk h1 h2 h3]

/-- Witness for the amended C3 at the spec's error scenario: risk level
`"extreme"` on a valid 20-day series. -/
theorem c3_invalid_risk_no_optimization_witness :
    20 ≤ constSeries.length ∧ ("extreme" : String) ≠ "low" ∧
      ("extreme" : String) ≠ "medium" ∧ ("extreme" : String) ≠ "high" ∧
      calculate constSeries [30] "extreme" (1 / 1000) 1 100 =
        ([Event.statsDone], Except.error Err.invalidRiskLevel) :=
  ⟨by simp [constSeries], by decide, by decide, by decide,
    c3_invalid_risk_no_optimization constSeries [30] "extreme" (1 / 1000) 1 100
      (by simp [constSeries]) (by decide) (by decide) (by decide)⟩

/-- Counterexample to C3 as stated: at risk level `"extreme"` the calculator
does fail, but the statistics step has already run at the moment of failure —
the trace of performed steps is `[statsDone]`, not `[]`.  The risk-level
check (src/main.py line 39) comes after the statistics block (lines 23-35),
so "no statistics have been performed" is false on the code. -/
theorem c3_statistics_run_before_risk_check :
    (calculate constSeries [30] "extreme" (1 / 1000) 1 100).1 = [Event.statsDone] ∧
    (calculate constSeries [30] "extreme" (1 / 1000) 1 100).2 =
      Except.error Err.invalidRiskLevel := by
  have hlen : ¬ constSeries.length < 20 := by simp [constSeries]
  have hnone : riskMultipliers ℝ "extreme" = none :=
    riskMultipliers_none ℝ "extreme" (by decide) (by decide) (by decide)
  constructor <;> simp [calculate, hlen, hnone]

/-- Claim C4 concerns non-positive trade volumes and non-positive horizons.
The specification requires a `ValidationError`, but `calculate_grid_parameters`
performs no such check: with trade volume `-100` and horizons `0` and `-7` it
still returns a `GridParameters` aggregate successfully. -/
theorem c4_missing_input_validation :
    (calculate constSeries [0, -7] "medium" (1 / 1000) 1 (-100)).2.isOk = true := by
  have hlen : ¬ constSeries.length < 20 := by simp [constSeries]
  simp [calculate, hlen, riskMultipliers_medium_eq, Except.isOk, Except.toBool]

/-- Claim C10: requesting the same horizon several times still succeeds, and
the per-horizon dict contains exactly one entry per distinct horizon, keyed by
horizon value and positioned at the horizon's first occurrence
(`keysOf = dedupFirst`), each mapping to the optimizer result for that
horizon. -/
theorem c10_duplicate_horizons (s : List DayRecord) (periods : List ℤ) (risk : String)
    (commissionRate fixedFee tradeVolume mult : ℝ)
    (hlen : 20 ≤ s.length)
    (hrisk : riskMultipliers ℝ risk = some mult) :
    ∃ r : CalcResult,
      (calculate s periods risk commissionRate fixedFee tradeVolume).2 = Except.ok r ∧
      keysOf r.periodStrategies = dedupFirst periods ∧
      (keysOf r.periodStrategies).Nodup ∧
      (∀ p, p ∈ periods → lookupD r.periodStrategies p =
        some (optimize (rangeBounds (meanPriceOf s) (stdPriceOf s) mult).1
          (rangeBounds (meanPriceOf s) (stdPriceOf s) mult).2 (avgAmplitudeOf s)
          commissionRate fixedFee p tradeVolume)) := by
  have hlen2 : ¬ s.length < 20 := by omega
  refine ⟨{ lowestPrice := (rangeBounds (meanPriceOf s) (stdPriceOf s) mult).1
            highestPrice := (rangeBounds (meanPriceOf s) (stdPriceOf s) mult).2
            currentPrice := currentPriceOf s
            sharpeRatio := sharpeOf s
            var95 := var95Of s
            periodStrategies := insertAll
              (fun period => optimize (rangeBounds (meanPriceOf s) (stdPriceOf s) mult).1
                (rangeBounds (meanPriceOf s) (stdPriceOf s) mult).2 (avgAmplitudeOf s)
                commissionRate fixedFee period tradeVolume)
              [] periods }, ?_, ?_, ?_, ?_⟩
  · simp [calculate, hlen2, hrisk]
  · exact keysOf_insertAll_nil _ periods
  · rw [keysOf_insertAll_nil]
    exact dedupFirst_nodup periods
  · intro p hp
    exact lookupD_insertAll_mem _ periods [] p hp

/-- Witness for C10 with the duplicated horizon list `[30, 90, 30]` on the
constant series at risk level medium. -/
theorem c10_duplicate_horizons_witness :
    20 ≤ constSeries.length ∧ riskMultipliers ℝ "medium" = some 2 ∧
      (∃ r : CalcResult,
        (calculate constSeries [30, 90, 30] "medium" (1 / 1000) 1 100).2 = Except.ok r ∧
        keysOf r.periodStrategies = dedupFirst [30, 90, 30] ∧
        (keysOf r.periodStrategies).Nodup ∧
        (∀ p, p ∈ ([30, 90, 30] : List ℤ) → lookupD r.periodStrategies p =
          some (optimize (rangeBounds (meanPriceOf constSeries) (stdPriceOf constSeries) 2).1
            (rangeBounds (meanPriceOf constSeries) (stdPriceOf constSeries) 2).2
            (avgAmplitudeOf constSeries) (1 / 1000) 1 p 100))) :=
  ⟨by simp [constSeries], riskMultipliers_medium_eq ℝ,
    c10_duplicate_horizons constSeries [30, 90, 30] "medium" (1 / 1000) 1 100 2
      (by simp [constSeries]) (riskMultipliers_medium_eq ℝ)⟩

/-- The deduplication itself on the witness's horizon list: `[30, 90, 30]`
collapses to `[30, 90]`, keeping the first occurrence. -/
theorem dedupFirst_example : dedupFirst [30, 90, 30] = [30, 90] := by
  simp [dedupFirst]
